import Mathlib

/-!
Verification development for the `python-gom-api` repository
(`src/api/gom-api/main.py` and `src/api/gom-api/mainTestes.py`).

The Python source is shallowly embedded: pandas `DataFrame`s become lists of
named columns of cells, `str.strip` / `str.replace` become explicit
`List Char` transformations, `re.split(r"\s+", ...)` and `str.split(",")`
become character-predicate splitters, and the HTTP error paths become
`Except` values.  All definitions are executable.
-/

namespace GomApi

instance {ε α : Type} [DecidableEq ε] [DecidableEq α] : DecidableEq (Except ε α) :=
  fun x y =>
    match x, y with
    | .error a, .error b => decidable_of_iff (a = b) (by simp)
    | .error _, .ok _ => .isFalse (by simp)
    | .ok _, .error _ => .isFalse (by simp)
    | .ok a, .ok b => decidable_of_iff (a = b) (by simp)

/-! ## Character-level string utilities

Python's `str.strip()` removes leading and trailing whitespace;
`str.replace('"', '').replace("'", "")` removes every double and single
quote character.  We model strings through their character lists.
-/

/-- Whitespace characters recognised by the model of Python `str.strip()`. -/
def isWS (c : Char) : Bool :=
  c == ' ' || c == '\t' || c == '\n' || c == '\r'

/-- Drop leading whitespace (model of `lstrip`). -/
def ltrim (l : List Char) : List Char := l.dropWhile isWS

/-- Strip trailing whitespace only (model of `rstrip`). -/
def rtrim (l : List Char) : List Char := (l.reverse.dropWhile isWS).reverse

/-- Strip leading and trailing whitespace (model of Python `str.strip()`). -/
def trimChars (l : List Char) : List Char :=
  ((ltrim l).reverse.dropWhile isWS).reverse

/-- Python `line.strip()` on a `String`. -/
def pyStrip (s : String) : String := ⟨trimChars s.data⟩

/-- Model of `.replace('"', '').replace("'", "")`: removes every quote char. -/
def unquoteChars (l : List Char) : List Char :=
  l.filter (fun c => !(c == '"' || c == '\''))

/-- Quote-removal followed by whitespace stripping, as applied by
`limpar_dataframe` to every column name and every cell. -/
def cleanChars (l : List Char) : List Char := trimChars (unquoteChars l)

/-- `cleanChars` lifted to `String`. -/
def cleanS (s : String) : String := ⟨cleanChars s.data⟩

/-- Split a character list at every character satisfying `p`
(model of Python `str.split(sep)` for a one-character separator, and of
`re.split` for a one-character class). `splitOnPred p [] = [[]]`, matching
`"".split(",") == [""]`. -/
def consHead (c : Char) : List (List Char) → List (List Char)
  | [] => [[c]]
  | g :: gs => (c :: g) :: gs

def splitOnPred (p : Char → Bool) : List Char → List (List Char)
  | [] => [[]]
  | c :: rest =>
    if p c then [] :: splitOnPred p rest
    else consHead c (splitOnPred p rest)

/-! ## `desconcatena_vars` (main.py lines 30-40) -/

/-- Embedding of `desconcatena_vars`: split the optional comma-separated
string into trimmed, non-empty tokens; `None` or whitespace-only input
yields the empty list. -/
def desconcatena_vars (stringVars : Option String) : List String :=
  match stringVars with
  | none => []
  | some s =>
    if pyStrip s = "" then []
    else
      let varsList := (splitOnPred (fun c => c == ',') s.data).map
        (fun cs => pyStrip ⟨cs⟩)
      varsList.filter (fun v => v ≠ "")

/-- Modelled from the spec's words (§4.2): "split on the delimiter, trim each
token, discard empty tokens, preserving order; empty when the string is
absent or whitespace-only".  Used only to compare with `desconcatena_vars`. -/
def specCleanRefs (stringVars : Option String) : List String :=
  match stringVars with
  | none => []
  | some s =>
    ((splitOnPred (fun c => c == ',') s.data).map (fun cs => pyStrip ⟨cs⟩)).filter
      (fun v => v ≠ "")

/-! ## Variable-reference validation (main.py lines 90-101) -/

/-- The error payload raised by `processar_dados` when requested variables are
missing: the full missing list and the available column names. -/
structure ValFailure where
  missing : List String
  available : List String
deriving DecidableEq

/-- Embedding of the validation stage of `processar_dados` (lines 92-101):
if the cleaned reference list is non-empty, compute the sublist of names not
among the dataset columns and fail iff it is non-empty. -/
def validate_internal_vars (internalVars : List String) (cols : List String) :
    Except ValFailure Unit :=
  if internalVars.isEmpty then .ok ()
  else
    let missingVars := internalVars.filter (fun v => !(cols.contains v))
    if missingVars.isEmpty then .ok ()
    else .error ⟨missingVars, cols⟩

/-! ## LMFR section extraction (main.py lines 184-214) -/

/-- The header marker searched for by `transformartxt`. -/
def lmfrMarker : String := "Lambda-Marginal Frequency Ratio (LMFR)"

/-- `pat` occurs as a contiguous sublist of `l` (model of Python `in` on
strings). -/
def containsSub (pat : List Char) : List Char → Bool
  | [] => pat.isPrefixOf []
  | c :: rest => pat.isPrefixOf (c :: rest) || containsSub pat rest

/-- Whether a report line contains the LMFR header marker. -/
def containsMarker (line : String) : Bool :=
  containsSub lmfrMarker.data line.data

/-- Index of the first line containing the marker, if any (the `enumerate`
scan of lines 187-191). -/
def findMarkerLine : List String → Option Nat
  | [] => none
  | l :: rest =>
    if containsMarker l then some 0
    else (findMarkerLine rest).map (· + 1)

/-- `start_idx`: two lines past the first marker line (lines 188-190),
`none` when the marker never occurs. -/
def findStart (lines : List String) : Option Nat :=
  (findMarkerLine lines).map (· + 2)

/-- Does the (already stripped) line start with the `*` sentinel? -/
def startsStar (s : String) : Bool :=
  match s.data with
  | '*' :: _ => true
  | _ => false

/-- The accumulation loop of lines 197-214: collect stripped lines, a single
blank line only increments a counter, two consecutive blank lines or a
`*`-prefixed line terminate. `bc` is `blank_count`. -/
def collectAux (bc : Nat) : List String → List String
  | [] => []
  | l :: rest =>
    let s := pyStrip l
    if s = "" then
      if bc + 1 ≥ 2 then [] else collectAux (bc + 1) rest
    else if startsStar s then []
    else s :: collectAux 0 rest

/-- `table_lines`, as accumulated from the lines after `start_idx`. -/
def collectTable (lines : List String) : List String := collectAux 0 lines

/-- Modelled from the spec's words (claim C1 / §4.3 step 3): the raw prefix of
the stream up to (excluding) the first of a two-blank-line pair or a
sentinel-prefixed line. Used only to compare with `collectTable`. -/
def windowPref : List String → List String
  | [] => []
  | a :: rest =>
    if (pyStrip a == "" && (match rest with | b :: _ => pyStrip b == "" | [] => false)) then []
    else if startsStar (pyStrip a) then []
    else a :: windowPref rest

/-- Modelled from the spec's words: the extraction window is exactly the
trimmed non-blank lines of that prefix. -/
def specWindow (lines : List String) : List String :=
  ((windowPref lines).filter (fun l => pyStrip l ≠ "")).map pyStrip

/-! ## Token parsing with the current-variable state (main.py lines 232-259,
mainTestes.py lines 250-269) -/

/-- `[p for p in re.split(r"\s+", line) if p]`: whitespace-run splitting with
empty pieces dropped. -/
def tokensOf (line : String) : List String :=
  ((splitOnPred isWS line.data).filter (fun g => g ≠ [])).map (fun cs => (⟨cs⟩ : String))

/-- A record emitted by one loop iteration: when a row width `w` is selected
and a current variable `v` is set and at least `w` tokens remain, the record
is `v` followed by the first `w` tokens; otherwise nothing is emitted. -/
def emit (w? : Option Nat) (cur : Option String) (parts : List String) :
    List (List String) :=
  match w?, cur with
  | some w, some v => if w ≤ parts.length then [v :: parts.take w] else []
  | _, _ => []

/-- One iteration of the parsing loop on the already-split token list: a
marker head becomes the new current variable and is dropped from the token
list before the width check; otherwise the line is width-checked against
the inherited current variable. -/
def parseStepTok (isMark : String → Bool) (w? : Option Nat)
    (st : Option String × List (List String)) :
    List String → Option String × List (List String)
  | [] => st
  | p0 :: rest =>
    if isMark p0 then (some p0, st.2 ++ emit w? (some p0) rest)
    else (st.1, st.2 ++ emit w? st.1 (p0 :: rest))

/-- One iteration of the parsing loop, parametrised by the new-variable
marker test `isMark` (membership in `internal_vars` in main.py line 238,
`startswith("Var")` in mainTestes.py line 257) and the selected row width.
State is `(current_var, data)`. -/
def parseStep (isMark : String → Bool) (w? : Option Nat)
    (st : Option String × List (List String)) (line : String) :
    Option String × List (List String) :=
  parseStepTok isMark w? st (tokensOf line)

/-- The whole parsing loop: fold over the table lines starting with no
current variable and no data. -/
def parseTable (isMark : String → Bool) (w? : Option Nat)
    (tableLines : List String) : List (List String) :=
  (tableLines.foldl (parseStep isMark w?) (none, [])).2

/-- Expected trailing-token count per data row (the `len(parts) >= 7/9/11`
dispatch of main.py lines 244-259). -/
def rowWidthFor (numK : Int) : Option Nat :=
  if numK = 2 then some 7
  else if numK = 3 then some 9
  else if numK = 4 then some 11
  else none

/-- The parsing loop of `transformartxt` in main.py (lines 232-259). -/
def parseMain (internalVars : List String) (numK : Int)
    (tableLines : List String) : List (List String) :=
  parseTable (fun t => internalVars.contains t) (rowWidthFor numK) tableLines

/-- Leading-token test of mainTestes.py line 257: `parts[0].startswith("Var")`. -/
def startsVar (t : String) : Bool :=
  ("Var".data).isPrefixOf t.data

/-- The parsing loop of `transformartxt` in mainTestes.py (lines 250-269),
fixed to the k = 2 schema (7 trailing tokens). -/
def parseTestes (tableLines : List String) : List (List String) :=
  parseTable startsVar (some 7) tableLines

/-! ## Schema selection and the `transformartxt` endpoint (main.py 158-295) -/

/-- Column schema per `num_k` (main.py lines 221-229); no default branch. -/
def colsFor (numK : Int) : Option (List String) :=
  if numK = 2 then
    some ["Variable", "Level", "n", "perc", "k1", "k2", "k1_perc_lj", "k2_perc_lj"]
  else if numK = 3 then
    some ["Variable", "Level", "n", "perc", "k1", "k2", "k3",
          "k1_perc_lj", "k2_perc_lj", "k3_perc_lj"]
  else if numK = 4 then
    some ["Variable", "Level", "n", "perc", "k1", "k2", "k3", "k4",
          "k1_perc_lj", "k2_perc_lj", "k3_perc_lj", "k4_perc_lj"]
  else none

/-- Modelled from the spec's words (§4.4): column names
`["Variable","Level","n","perc", k1..kk, k1_perc_lj..kk_perc_lj]`
(width `4 + 2k`). Used only to compare with `colsFor`. -/
def specColsFor (k : Nat) : List String :=
  ["Variable", "Level", "n", "perc"]
    ++ (List.range k).map (fun i => "k" ++ toString (i + 1))
    ++ (List.range k).map (fun i => "k" ++ toString (i + 1) ++ "_perc_lj")

/-- Source file path per `num_k` (main.py lines 166-174); no default branch,
so any other `num_k` leaves `file_path` unassigned and the later read of
`file_path` raises an unhandled `UnboundLocalError`. -/
def filePathFor (numK : Int) : Option String :=
  if numK = 2 then some "K2/LogGoMK2(1).TXT"
  else if numK = 3 then some "K3/LogGoMK3(1).TXT"
  else if numK = 4 then some "K4/LogGoMK4(1).TXT"
  else none

/-- Failure modes of the `transformartxt` endpoint. `unboundLocal` is the
unhandled Python `UnboundLocalError` (no clean HTTP failure kind);
`txtNotFound` is the 404 of line 178; `lmfrNotFound` is the 400 of line 194. -/
inductive TxtErr where
  | unboundLocal
  | txtNotFound
  | lmfrNotFound
deriving DecidableEq

/-- Successful result of `transformartxt`: the schema, `rows_count` and the
extracted records (the data the endpoint frames and saves). -/
structure TxtResult where
  columns : List String
  rowsCount : Nat
  rows : List (List String)
deriving DecidableEq

/-- Embedding of the `transformartxt` endpoint (main.py lines 158-295).
`fs` models the file system: the lines of the report file at a path, if it
exists.  Stages in source order: clean the variable string, dispatch the
path on `num_k`, read the file, locate the LMFR header, collect the table
window, dispatch the schema on `num_k`, run the parsing loop. -/
def transformartxt (numK : Int) (internalVarsString : Option String)
    (fs : String → Option (List String)) : Except TxtErr TxtResult :=
  let internalVars := desconcatena_vars internalVarsString
  match filePathFor numK with
  | none => .error .unboundLocal
  | some fp =>
    match fs fp with
    | none => .error .txtNotFound
    | some lines =>
      match findStart lines with
      | none => .error .lmfrNotFound
      | some startIdx =>
        let tableLines := collectTable (lines.drop startIdx)
        match colsFor numK with
        | none => .error .unboundLocal
        | some cols =>
          let data := parseTable (fun t => internalVars.contains t)
            (rowWidthFor numK) tableLines
          .ok ⟨cols, data.length, data⟩

/-! ## DataFrame model and `limpar_dataframe` (main.py lines 65-79)

A cell is a string, a numeric value, or missing (pandas `NaN`).  Numeric
values are represented by their canonical decimal literal, which is exactly
how they travel through `astype(str)` / `pd.to_numeric`: `astype(str)`
renders a numeric as its literal and a missing value as the string `"nan"`,
and `pd.to_numeric` succeeds on a column iff every cell is a decimal
literal or `"nan"` (the latter parsing back to missing). -/

inductive Cell where
  | str (s : String)
  | num (s : String)
  | na
deriving DecidableEq

/-- `astype(str)` on one cell. -/
def cellToStr : Cell → String
  | .str s => s
  | .num s => s
  | .na => "nan"

/-- Decimal digits after the first digit of the integer part: accept end of
input or a dot followed by digits only (`"5."` and `"5.25"` both parse). -/
def numTail : List Char → Bool
  | [] => true
  | c :: r => if c = '.' then r.all Char.isDigit else c.isDigit && numTail r

/-- An unsigned decimal literal: digits with an optional fractional part, or
a leading dot with at least one digit (`".5"`). -/
def numBody : List Char → Bool
  | [] => false
  | c :: r => if c = '.' then !r.isEmpty && r.all Char.isDigit
              else c.isDigit && numTail r

/-- A signed decimal literal (model of what `pd.to_numeric` parses). -/
def isNumLit : List Char → Bool
  | [] => false
  | c :: r => if c = '-' ∨ c = '+' then numBody r else numBody (c :: r)

/-- A cleaned cell string on which `pd.to_numeric` succeeds: a decimal
literal or the rendering `"nan"` of a missing value. -/
def parsableStr (s : String) : Bool := s == "nan" || isNumLit s.data

/-- The cell `pd.to_numeric` produces from a parsable string. -/
def toCellNum (s : String) : Cell := if s == "nan" then .na else .num s

/-- The per-cell string pipeline of line 71:
`astype(str).str.replace('"','').str.replace("'",'').str.strip()`. -/
def cleanedStrs (cells : List Cell) : List String :=
  cells.map (fun c => cleanS (cellToStr c))

/-- The per-column body of `limpar_dataframe` (lines 69-77): stringify and
clean every cell, then `pd.to_numeric` on the whole column — if every cell
parses the column becomes numeric, otherwise the `ValueError` is swallowed
and the column stays string-typed. -/
def cleanCol (cells : List Cell) : List Cell :=
  let strs := cleanedStrs cells
  if strs.all parsableStr then strs.map toCellNum
  else strs.map Cell.str

/-- A cell holds a numeric-typed value (numeric literal or missing): the
column type pandas gives a column on which `pd.to_numeric` succeeded. -/
def isNumericCell : Cell → Bool
  | .str _ => false
  | .num _ => true
  | .na => true

/-- A DataFrame: named columns of cells. -/
abbrev Df := List (String × List Cell)

/-- Embedding of `limpar_dataframe` (lines 65-79): clean every column name
(line 66) and run the per-column pipeline on every column. -/
def limpar_dataframe (df : Df) : Df :=
  df.map (fun col => (cleanS col.1, cleanCol col.2))

/-! ## Heatmap reshaping (main.py lines 297-337) -/

/-- One row of the projected `Variable/Level/k1/k2` table consumed by
`retornarDadosHeatmap`. -/
structure HRow where
  varName : String
  level : String
  k1 : ℚ
  k2 : ℚ
deriving DecidableEq

/-- The ECharts coordinate loop (lines 322-327): per row at index `i`, one
triple `(0, i, k1)` then one triple `(1, i, k2)`. -/
def echartsAux (i : Nat) : List HRow → List (Nat × Nat × ℚ)
  | [] => []
  | r :: rest => (0, i, r.k1) :: (1, i, r.k2) :: echartsAux (i + 1) rest

/-- The y-axis label of one row (line 316): `f"{row['Variable']} - {row['Level']}"`. -/
def yLabelOf (r : HRow) : String := r.varName ++ " - " ++ r.level

/-- Embedding of the reshaping core of `retornarDadosHeatmap`
(lines 309-334): x labels, y labels, and the sparse coordinate list. -/
def retornarDadosHeatmap (rows : List HRow) :
    List String × List String × List (Nat × Nat × ℚ) :=
  (["k1", "k2"], rows.map yLabelOf, echartsAux 0 rows)

/-- Outcome classification of the whole `/dados-heatmap` endpoint with
respect to error handling (lines 299-307).  An uncaught Python exception
(here the pandas `KeyError` from selecting absent columns on line 307) is an
`Except.error`; any response the handler actually returns — including the
caught-`FileNotFoundError` error payload of line 303 — is an `Except.ok`. -/
inductive HeatErr where
  | uncaughtKeyError (missing : List String)
deriving DecidableEq

/-- The handler's possible responses: the "file not found" error payload, or
a success payload carrying the projected columns. -/
inductive HeatResponse where
  | errorNotFound
  | payload (projected : Df)
deriving DecidableEq

/-- The columns `retornarDadosHeatmap` selects (line 306). -/
def colunasImportantes : List String := ["Variable", "Level", "k1", "k2"]

/-- The columns of `colunas_importantes` absent from a DataFrame (those a
pandas `df[colunas_importantes]` would raise a `KeyError` about). -/
def heatmapMissingCols (df : Df) : List String :=
  colunasImportantes.filter (fun c => !((df.map Prod.fst).contains c))

/-- Embedding of the read/select stage of `retornarDadosHeatmap`
(lines 299-307): a missing CSV is caught and answered with an error payload;
a present table is projected onto `colunas_importantes`, and any absent
column escapes as an uncaught `KeyError`. -/
def dadosHeatmapEndpoint (src : Option Df) : Except HeatErr HeatResponse :=
  match src with
  | none => .ok .errorNotFound
  | some df =>
    if heatmapMissingCols df = [] then
      .ok (.payload (colunasImportantes.filterMap
        (fun c => df.find? (fun col => col.1 == c))))
    else .error (.uncaughtKeyError (heatmapMissingCols df))

/-! ## Helper lemmas about the character-level utilities -/

theorem trimChars_eq_rtrim_ltrim (l : List Char) :
    trimChars l = rtrim (ltrim l) := rfl

theorem dropWhile_isWS_idem (l : List Char) :
    (l.dropWhile isWS).dropWhile isWS = l.dropWhile isWS := by
  induction l with
  | nil => rfl
  | cons c r ih =>
    by_cases h : isWS c = true
    · simpa [List.dropWhile_cons_of_pos h] using ih
    · simp [List.dropWhile_cons_of_neg h]

theorem ltrim_head_not_ws {l : List Char} {c : Char} {r : List Char}
    (h : ltrim l = c :: r) : isWS c = false := by
  induction l with
  | nil => simp [ltrim] at h
  | cons a t ih =>
    by_cases ha : isWS a = true
    · exact ih (by simpa [ltrim, List.dropWhile_cons_of_pos ha] using h)
    · rw [ltrim, List.dropWhile_cons_of_neg ha] at h
      cases h
      exact Bool.eq_false_iff.mpr ha

theorem ltrim_of_head_not_ws {l : List Char} {c : Char} {r : List Char}
    (h : isWS c = false) (hl : l = c :: r) : ltrim l = l := by
  subst hl
  exact List.dropWhile_cons_of_neg (by simp [h])

theorem rtrim_isPrefix (l : List Char) : rtrim l <+: l := by
  have h : (rtrim l).reverse <:+ l.reverse := by
    simpa [rtrim] using List.dropWhile_suffix (l := l.reverse) isWS
  exact List.reverse_suffix.mp (by simpa using h)

theorem rtrim_idem (l : List Char) : rtrim (rtrim l) = rtrim l := by
  simp [rtrim, dropWhile_isWS_idem]

theorem ltrim_rtrim_ltrim (l : List Char) :
    ltrim (rtrim (ltrim l)) = rtrim (ltrim l) := by
  cases h : rtrim (ltrim l) with
  | nil => simp [ltrim]
  | cons c r =>
    have hpre : rtrim (ltrim l) <+: ltrim l := rtrim_isPrefix (ltrim l)
    rw [h] at hpre
    obtain ⟨t, ht⟩ := hpre
    have hhead : ltrim l = c :: (r ++ t) := by simpa using ht.symm
    have hc : isWS c = false := ltrim_head_not_ws hhead
    rw [← h]
    exact ltrim_of_head_not_ws hc h

theorem trimChars_idem (l : List Char) :
    trimChars (trimChars l) = trimChars l := by
  rw [trimChars_eq_rtrim_ltrim, trimChars_eq_rtrim_ltrim,
      ltrim_rtrim_ltrim, rtrim_idem]

theorem mem_ltrim {c : Char} {l : List Char} (h : c ∈ ltrim l) : c ∈ l :=
  (List.dropWhile_suffix isWS).subset h

theorem mem_rtrim {c : Char} {l : List Char} (h : c ∈ rtrim l) : c ∈ l :=
  (rtrim_isPrefix l).subset h

theorem mem_trimChars {c : Char} {l : List Char} (h : c ∈ trimChars l) :
    c ∈ l := by
  rw [trimChars_eq_rtrim_ltrim] at h
  exact mem_ltrim (mem_rtrim h)

theorem mem_unquoteChars {c : Char} {l : List Char} (h : c ∈ unquoteChars l) :
    c ∈ l ∧ (!(c == '"' || c == '\'')) = true := by
  simpa [unquoteChars] using List.mem_filter.mp h

theorem unquoteChars_of_no_quotes {l : List Char}
    (h : ∀ c ∈ l, (!(c == '"' || c == '\'')) = true) : unquoteChars l = l :=
  List.filter_eq_self.mpr h

theorem cleanChars_idem (l : List Char) :
    cleanChars (cleanChars l) = cleanChars l := by
  have hno : unquoteChars (trimChars (unquoteChars l)) = trimChars (unquoteChars l) := by
    refine unquoteChars_of_no_quotes (fun c hc => ?_)
    exact (mem_unquoteChars (mem_trimChars hc)).2
  show trimChars (unquoteChars (trimChars (unquoteChars l))) = trimChars (unquoteChars l)
  rw [hno, trimChars_idem]

theorem data_cleanS (s : String) : (cleanS s).data = cleanChars s.data := rfl

theorem cleanS_idem (s : String) : cleanS (cleanS s) = cleanS s := by
  show (⟨cleanChars (cleanChars s.data)⟩ : String) = ⟨cleanChars s.data⟩
  rw [cleanChars_idem]

theorem trimChars_of_no_ws {l : List Char} (h : ∀ c ∈ l, isWS c = false) :
    trimChars l = l := by
  have hl : ltrim l = l := by
    cases l with
    | nil => rfl
    | cons c r => exact List.dropWhile_cons_of_neg (by simp [h c (List.mem_cons_self c r)])
  have hr : rtrim l = l := by
    cases hrev : l.reverse with
    | nil =>
      have : l = [] := by simpa using congrArg List.reverse hrev
      subst this
      rfl
    | cons c r =>
      have hc : isWS c = false := by
        refine h c ?_
        have hmem : c ∈ l.reverse := by rw [hrev]; exact List.mem_cons_self c r
        simpa using hmem
      rw [rtrim, hrev, List.dropWhile_cons_of_neg (by simp [hc]), ← hrev,
        List.reverse_reverse]
  rw [trimChars_eq_rtrim_ltrim, hl, hr]

theorem cleanChars_of_plain {l : List Char}
    (hws : ∀ c ∈ l, isWS c = false)
    (hq : ∀ c ∈ l, (!(c == '"' || c == '\'')) = true) : cleanChars l = l := by
  unfold cleanChars
  rw [unquoteChars_of_no_quotes hq, trimChars_of_no_ws hws]

/-! ## Helper lemmas about numeric literals and column cleaning -/

theorem isDigit_plain {c : Char} (h : c.isDigit = true) :
    isWS c = false ∧ (!(c == '"' || c == '\'')) = true := by
  constructor
  · simp only [isWS, Bool.or_eq_false_iff, beq_eq_false_iff_ne, ne_eq]
    refine ⟨⟨⟨?_, ?_⟩, ?_⟩, ?_⟩ <;> rintro rfl <;> exact absurd h (by decide)
  · simp only [Bool.not_eq_eq_eq_not, Bool.not_true, Bool.or_eq_false_iff,
      beq_eq_false_iff_ne, ne_eq]
    constructor <;> rintro rfl <;> exact absurd h (by decide)

theorem numLit_char_plain {c : Char}
    (h : c.isDigit = true ∨ c = '.' ∨ c = '-' ∨ c = '+') :
    isWS c = false ∧ (!(c == '"' || c == '\'')) = true := by
  rcases h with h | rfl | rfl | rfl
  · exact isDigit_plain h
  · exact ⟨by decide, by decide⟩
  · exact ⟨by decide, by decide⟩
  · exact ⟨by decide, by decide⟩

theorem numTail_chars {l : List Char} (h : numTail l = true) :
    ∀ c ∈ l, c.isDigit = true ∨ c = '.' ∨ c = '-' ∨ c = '+' := by
  induction l with
  | nil => intro c hc; cases hc
  | cons a r ih =>
    intro c hc
    by_cases ha : a = '.'
    · subst ha
      rw [numTail, if_pos rfl] at h
      rcases List.mem_cons.mp hc with rfl | hc
      · exact Or.inr (Or.inl rfl)
      · exact Or.inl (List.all_eq_true.mp h c hc)
    · rw [numTail, if_neg ha, Bool.and_eq_true] at h
      rcases List.mem_cons.mp hc with rfl | hc
      · exact Or.inl h.1
      · exact ih h.2 c hc

theorem numBody_chars {l : List Char} (h : numBody l = true) :
    ∀ c ∈ l, c.isDigit = true ∨ c = '.' ∨ c = '-' ∨ c = '+' := by
  cases l with
  | nil => intro c hc; cases hc
  | cons a r =>
    intro c hc
    by_cases ha : a = '.'
    · subst ha
      rw [numBody, if_pos rfl, Bool.and_eq_true] at h
      rcases List.mem_cons.mp hc with rfl | hc
      · exact Or.inr (Or.inl rfl)
      · exact Or.inl (List.all_eq_true.mp h.2 c hc)
    · rw [numBody, if_neg ha, Bool.and_eq_true] at h
      rcases List.mem_cons.mp hc with rfl | hc
      · exact Or.inl h.1
      · exact numTail_chars h.2 c hc

theorem isNumLit_chars {l : List Char} (h : isNumLit l = true) :
    ∀ c ∈ l, c.isDigit = true ∨ c = '.' ∨ c = '-' ∨ c = '+' := by
  cases l with
  | nil => intro c hc; cases hc
  | cons a r =>
    intro c hc
    by_cases ha : a = '-' ∨ a = '+'
    · rw [isNumLit, if_pos ha] at h
      rcases List.mem_cons.mp hc with rfl | hc
      · rcases ha with rfl | rfl
        · exact Or.inr (Or.inr (Or.inl rfl))
        · exact Or.inr (Or.inr (Or.inr rfl))
      · exact numBody_chars h c hc
    · rw [isNumLit, if_neg ha] at h
      exact numBody_chars h c hc

theorem cleanS_of_parsable {s : String} (h : parsableStr s = true) :
    cleanS s = s := by
  rw [parsableStr, Bool.or_eq_true] at h
  rcases h with h | h
  · have : s = "nan" := by simpa using h
    subst this
    decide
  · have hplain := fun c hc => numLit_char_plain (isNumLit_chars h c hc)
    show (⟨cleanChars s.data⟩ : String) = s
    rw [cleanChars_of_plain (fun c hc => (hplain c hc).1) (fun c hc => (hplain c hc).2)]

theorem cellToStr_toCellNum {s : String} : cellToStr (toCellNum s) = s := by
  rw [toCellNum]
  by_cases h : s == "nan"
  · rw [if_pos h, cellToStr]
    exact (beq_iff_eq.mp h).symm
  · rw [if_neg h, cellToStr]

theorem cleanedStrs_cleanCol (cells : List Cell) :
    cleanedStrs (cleanCol cells) = cleanedStrs cells := by
  rw [cleanCol]
  by_cases hall : (cleanedStrs cells).all parsableStr = true
  · rw [if_pos hall]
    show (List.map toCellNum (cleanedStrs cells)).map (fun c => cleanS (cellToStr c))
        = cleanedStrs cells
    rw [List.map_map]
    have : ∀ s ∈ cleanedStrs cells,
        ((fun c => cleanS (cellToStr c)) ∘ toCellNum) s = s := by
      intro s hs
      have hp : parsableStr s = true := List.all_eq_true.mp hall s hs
      show cleanS (cellToStr (toCellNum s)) = s
      rw [cellToStr_toCellNum, cleanS_of_parsable hp]
    rw [List.map_congr_left this]
    exact List.map_id' _
  · rw [if_neg hall]
    show (List.map Cell.str (cleanedStrs cells)).map (fun c => cleanS (cellToStr c))
        = cleanedStrs cells
    rw [List.map_map]
    have : ∀ s ∈ cleanedStrs cells,
        ((fun c => cleanS (cellToStr c)) ∘ Cell.str) s = s := by
      intro s hs
      obtain ⟨c, _, rfl⟩ := List.mem_map.mp hs
      show cleanS (cleanS (cellToStr c)) = cleanS (cellToStr c)
      exact cleanS_idem _
    rw [List.map_congr_left this]
    exact List.map_id' _

theorem cleanCol_idem (cells : List Cell) :
    cleanCol (cleanCol cells) = cleanCol cells := by
  conv_lhs => rw [cleanCol, cleanedStrs_cleanCol]
  by_cases hall : (cleanedStrs cells).all parsableStr = true
  · rw [if_pos hall, cleanCol, if_pos hall]
  · rw [if_neg hall, cleanCol, if_neg hall]

/-! ## Claim C5: all-or-nothing numeric coercion per column -/

/-- C5: after quote/whitespace stripping, `limpar_dataframe`'s numeric
coercion is all-or-nothing per column: if every cleaned cell string parses
the whole column becomes numeric-typed, and if any single one fails the
entire column stays string-typed; in particular `["1","2","3"]` becomes
numeric while `["1","x","3"]` stays all strings.  (The sanitizer is a total
function — it signals no error.) -/
theorem claim_C5_numeric_coercion (cells : List Cell) :
    ((cleanedStrs cells).all parsableStr = true →
      cleanCol cells = (cleanedStrs cells).map toCellNum ∧
      ∀ c ∈ cleanCol cells, isNumericCell c = true) ∧
    ((cleanedStrs cells).all parsableStr = false →
      cleanCol cells = (cleanedStrs cells).map Cell.str ∧
      ∀ c ∈ cleanCol cells, isNumericCell c = false) ∧
    cleanCol [Cell.str "1", Cell.str "2", Cell.str "3"]
      = [Cell.num "1", Cell.num "2", Cell.num "3"] ∧
    cleanCol [Cell.str "1", Cell.str "x", Cell.str "3"]
      = [Cell.str "1", Cell.str "x", Cell.str "3"] := by
  refine ⟨fun hall => ?_, fun hfail => ?_, by decide, by decide⟩
  · have heq : cleanCol cells = (cleanedStrs cells).map toCellNum := by
      rw [cleanCol, if_pos hall]
    refine ⟨heq, fun c hc => ?_⟩
    rw [heq] at hc
    obtain ⟨s, _, rfl⟩ := List.mem_map.mp hc
    rw [toCellNum]
    by_cases h : s == "nan"
    · rw [if_pos h]; rfl
    · rw [if_neg h]; rfl
  · have heq : cleanCol cells = (cleanedStrs cells).map Cell.str := by
      rw [cleanCol, if_neg (by simp [hfail])]
    refine ⟨heq, fun c hc => ?_⟩
    rw [heq] at hc
    obtain ⟨s, _, rfl⟩ := List.mem_map.mp hc
    rfl

theorem claim_C5_witness :
    cleanCol [Cell.str " 2 ", Cell.na]
      = (cleanedStrs [Cell.str " 2 ", Cell.na]).map toCellNum :=
  ((claim_C5_numeric_coercion [Cell.str " 2 ", Cell.na]).1 (by decide)).1

/-! ## Claim C6: sanitizer idempotence -/

/-- C6: `limpar_dataframe` is idempotent — sanitizing an already-sanitized
table changes no column name, no cell value and no cell type. -/
theorem claim_C6_sanitizer_idempotent (df : Df) :
    limpar_dataframe (limpar_dataframe df) = limpar_dataframe df := by
  unfold limpar_dataframe
  rw [List.map_map]
  refine List.map_congr_left (fun col _ => ?_)
  show (cleanS (cleanS col.1), cleanCol (cleanCol col.2))
      = (cleanS col.1, cleanCol col.2)
  rw [cleanS_idem, cleanCol_idem]

/-! ## Claim C10: missing cells are rendered as the string "nan" -/

/-- C10: `limpar_dataframe` does not preserve missingness in non-numeric
columns.  Every missing cell is first rendered as the literal string
`"nan"` by the `astype(str)` step; in a column that does not fully parse as
numeric the missing cell therefore comes out as the ordinary string
`"nan"`, while in a fully-parsable column `"nan"` parses back to missing. -/
theorem claim_C10_missing_to_nan (cells : List Cell) (i : Nat) :
    (cells[i]? = some Cell.na → (cleanedStrs cells)[i]? = some "nan") ∧
    ((cleanedStrs cells).all parsableStr = false → cells[i]? = some Cell.na →
      (cleanCol cells)[i]? = some (Cell.str "nan")) ∧
    ((cleanedStrs cells).all parsableStr = true → cells[i]? = some Cell.na →
      (cleanCol cells)[i]? = some Cell.na) := by
  have hstr : cells[i]? = some Cell.na → (cleanedStrs cells)[i]? = some "nan" := by
    intro h
    rw [cleanedStrs, List.getElem?_map, h]
    show some (cleanS (cellToStr Cell.na)) = some "nan"
    rw [show cleanS (cellToStr Cell.na) = "nan" from by decide]
  refine ⟨hstr, fun hfail h => ?_, fun hall h => ?_⟩
  · rw [cleanCol, if_neg (by simp [hfail]), List.getElem?_map, hstr h]
    rfl
  · rw [cleanCol, if_pos hall, List.getElem?_map, hstr h]
    show some (toCellNum "nan") = some Cell.na
    rfl

theorem claim_C10_witness :
    (cleanCol [Cell.str "x", Cell.na])[1]? = some (Cell.str "nan") :=
  (claim_C10_missing_to_nan [Cell.str "x", Cell.na] 1).2.1 (by decide) (by decide)

/-! ## Helper lemmas for claim C4 -/

theorem splitOnPred_subset (p : Char → Bool) :
    ∀ l, ∀ g ∈ splitOnPred p l, ∀ c ∈ g, c ∈ l := by
  intro l
  induction l with
  | nil =>
    intro g hg c hc
    simp [splitOnPred] at hg
    subst hg
    cases hc
  | cons a r ih =>
    intro g hg c hc
    rw [splitOnPred] at hg
    by_cases hpa : p a = true
    · rw [if_pos hpa] at hg
      rcases List.mem_cons.mp hg with rfl | hg
      · cases hc
      · exact List.mem_cons_of_mem a (ih g hg c hc)
    · rw [if_neg hpa] at hg
      cases hsp : splitOnPred p r with
      | nil =>
        rw [hsp, consHead] at hg
        have hg1 : g = [a] := by simpa using hg
        subst hg1
        have : c = a := by simpa using hc
        subst this
        exact List.mem_cons_self c r
      | cons g0 gs =>
        rw [hsp, consHead] at hg
        rcases List.mem_cons.mp hg with rfl | hg
        · rcases List.mem_cons.mp hc with rfl | hc
          · exact List.mem_cons_self c r
          · refine List.mem_cons_of_mem a (ih g0 ?_ c hc)
            rw [hsp]
            exact List.mem_cons_self g0 gs
        · exact List.mem_cons_of_mem a (ih g (hsp ▸ List.mem_cons_of_mem g0 hg) c hc)

theorem trimChars_eq_nil_iff (l : List Char) :
    trimChars l = [] ↔ ∀ c ∈ l, isWS c = true := by
  constructor
  · intro h
    have hlt : ltrim l = [] := by
      cases hl : ltrim l with
      | nil => rfl
      | cons c r =>
        exfalso
        have hc : isWS c = false := ltrim_head_not_ws hl
        rw [trimChars_eq_rtrim_ltrim, hl] at h
        have : c ∈ rtrim (c :: r) := by
          cases hr : rtrim (c :: r) with
          | nil =>
            exfalso
            have : ∀ x ∈ (c :: r).reverse, isWS x = true := by
              have hnil : (c :: r).reverse.dropWhile isWS = [] := by
                have := congrArg List.reverse hr
                simpa [rtrim] using this
              exact List.dropWhile_eq_nil_iff.mp hnil
            have := this c (by simp)
            rw [this] at hc
            cases hc
          | cons x xs => rw [h] at hr; cases hr
        rw [h] at this
        cases this
    have := List.dropWhile_eq_nil_iff.mp hlt
    exact this
  · intro h
    have hlt : ltrim l = [] := List.dropWhile_eq_nil_iff.mpr h
    rw [trimChars_eq_rtrim_ltrim, hlt]
    rfl

theorem pyStrip_eq_empty_of_ws {cs : List Char}
    (h : ∀ c ∈ cs, isWS c = true) : pyStrip ⟨cs⟩ = "" := by
  show (⟨trimChars cs⟩ : String) = ⟨[]⟩
  rw [(trimChars_eq_nil_iff cs).mpr h]

theorem desconcatena_eq_spec (s? : Option String) :
    desconcatena_vars s? = specCleanRefs s? := by
  cases s? with
  | none => rfl
  | some s =>
    rw [desconcatena_vars, specCleanRefs]
    by_cases h : pyStrip s = ""
    · rw [if_pos h]
      symm
      rw [List.filter_eq_nil_iff]
      intro v hv
      obtain ⟨cs, hcs, rfl⟩ := List.mem_map.mp hv
      have hallws : ∀ c ∈ s.data, isWS c = true := by
        have hdata : trimChars s.data = [] := congrArg String.data h
        exact (trimChars_eq_nil_iff s.data).mp hdata
      have hpiece : ∀ c ∈ cs, isWS c = true :=
        fun c hc => hallws c (splitOnPred_subset _ s.data cs hcs c hc)
      simp [pyStrip_eq_empty_of_ws hpiece]
    · rw [if_neg h]

theorem validate_error_iff (internalVars cols : List String) :
    validate_internal_vars internalVars cols
        = .error ⟨internalVars.filter (fun v => !(cols.contains v)), cols⟩
      ↔ internalVars.filter (fun v => !(cols.contains v)) ≠ [] := by
  rw [validate_internal_vars]
  by_cases hR : internalVars.isEmpty = true
  · have : internalVars = [] := by simpa using hR
    subst this
    simp
  · rw [if_neg hR]
    by_cases hM : (internalVars.filter (fun v => !(cols.contains v))).isEmpty = true
    · have hnil : internalVars.filter (fun v => !(cols.contains v)) = [] := by
        simpa using hM
      simp [hM, hnil]
    · have hne : internalVars.filter (fun v => !(cols.contains v)) ≠ [] := by
        simpa using hM
      simp [hM, hne]

theorem validate_ok_iff (internalVars cols : List String) :
    validate_internal_vars internalVars cols = .ok ()
      ↔ internalVars.filter (fun v => !(cols.contains v)) = [] := by
  rw [validate_internal_vars]
  by_cases hR : internalVars.isEmpty = true
  · have : internalVars = [] := by simpa using hR
    subst this
    simp
  · rw [if_neg hR]
    by_cases hM : (internalVars.filter (fun v => !(cols.contains v))).isEmpty = true
    · have hnil : internalVars.filter (fun v => !(cols.contains v)) = [] := by
        simpa using hM
      simp [hM, hnil]
    · have hne : internalVars.filter (fun v => !(cols.contains v)) ≠ [] := by
        simpa using hM
      simp [hM, hne]

/-! ## Claim C4: reference-list cleaning and validation -/

/-- C4: the cleaned reference list is the order-preserving sequence of
trimmed non-empty comma tokens (empty for absent/whitespace-only input);
the missing list is exactly the in-order subsequence of references absent
from the columns, empty iff all references are present; and the failure
carrying the full missing list plus the available columns is signalled iff
the missing list is non-empty. -/
theorem claim_C4_reference_validation (s? : Option String) (cols : List String) :
    desconcatena_vars s? = specCleanRefs s? ∧
    List.Sublist ((desconcatena_vars s?).filter (fun v => !(cols.contains v)))
        (desconcatena_vars s?) ∧
    (∀ v, v ∈ (desconcatena_vars s?).filter (fun v => !(cols.contains v)) ↔
        (v ∈ desconcatena_vars s? ∧ v ∉ cols)) ∧
    ((desconcatena_vars s?).filter (fun v => !(cols.contains v)) = [] ↔
        ∀ v ∈ desconcatena_vars s?, v ∈ cols) ∧
    (validate_internal_vars (desconcatena_vars s?) cols
        = .error ⟨(desconcatena_vars s?).filter (fun v => !(cols.contains v)), cols⟩
      ↔ (desconcatena_vars s?).filter (fun v => !(cols.contains v)) ≠ []) ∧
    (validate_internal_vars (desconcatena_vars s?) cols = .ok () ↔
        (desconcatena_vars s?).filter (fun v => !(cols.contains v)) = []) := by
  refine ⟨desconcatena_eq_spec s?, List.filter_sublist _, fun v => ?_, ?_, ?_, ?_⟩
  · simp [List.mem_filter]
  · rw [List.filter_eq_nil_iff]
    constructor
    · intro h v hv
      have := h v hv
      simpa using this
    · intro h v hv
      simpa using h v hv
  · exact validate_error_iff _ _
  · exact validate_ok_iff _ _

theorem claim_C4_witness :
    validate_internal_vars (desconcatena_vars (some " a , b ")) ["a"]
      = .error ⟨(desconcatena_vars (some " a , b ")).filter
          (fun v => !(["a"].contains v)), ["a"]⟩ :=
  (claim_C4_reference_validation (some " a , b ") ["a"]).2.2.2.2.1.mpr (by decide)

/-! ## Helper lemmas for claim C1 -/

theorem findMarkerLine_eq_none_iff (lines : List String) :
    findMarkerLine lines = none ↔ ∀ l ∈ lines, containsMarker l = false := by
  induction lines with
  | nil => simp [findMarkerLine]
  | cons a r ih =>
    rw [findMarkerLine]
    by_cases h : containsMarker a = true
    · simp [h]
    · rw [if_neg h, Option.map_eq_none', ih]
      constructor
      · intro hr l hl
        rcases List.mem_cons.mp hl with rfl | hl
        · exact Bool.eq_false_iff.mpr h
        · exact hr l hl
      · intro hall l hl
        exact hall l (List.mem_cons_of_mem a hl)

theorem findMarkerLine_first {lines : List String} {i : Nat} {l : String}
    (hget : lines[i]? = some l) (hm : containsMarker l = true)
    (hprev : (lines.take i).all (fun x => !(containsMarker x)) = true) :
    findMarkerLine lines = some i := by
  induction lines generalizing i with
  | nil => cases hget
  | cons a r ih =>
    cases i with
    | zero =>
      have : a = l := by simpa using hget
      subst this
      rw [findMarkerLine, if_pos hm]
    | succ j =>
      rw [List.take_succ_cons, List.all_cons, Bool.and_eq_true] at hprev
      obtain ⟨ha, hprev'⟩ := hprev
      have ha' : ¬ containsMarker a = true := by simpa using ha
      rw [findMarkerLine, if_neg ha',
        ih (by simpa using hget) hprev']
      rfl

theorem startsStar_empty : startsStar "" = false := rfl

theorem collectAux_cons (bc : Nat) (l : String) (rest : List String) :
    collectAux bc (l :: rest) =
      if pyStrip l = "" then
        (if bc + 1 ≥ 2 then [] else collectAux (bc + 1) rest)
      else if startsStar (pyStrip l) = true then []
      else pyStrip l :: collectAux 0 rest := rfl

theorem collectAux_one_of_nonblank {b : String} (r : List String)
    (hb : pyStrip b ≠ "") : collectAux 1 (b :: r) = collectAux 0 (b :: r) := by
  rw [collectAux_cons, collectAux_cons, if_neg hb, if_neg hb]

theorem windowPref_cons (a : String) (rest : List String) :
    windowPref (a :: rest) =
      if (pyStrip a == "" &&
          (match rest with | b :: _ => pyStrip b == "" | [] => false)) = true then []
      else if startsStar (pyStrip a) = true then []
      else a :: windowPref rest := rfl

theorem specWindow_blank_single {a : String} (ha : pyStrip a = "") :
    specWindow [a] = [] := by
  rw [specWindow, windowPref_cons, if_neg (by simp), if_neg (by rw [ha, startsStar_empty]; simp)]
  simp [windowPref, ha]

theorem specWindow_two_blank {a b : String} (r : List String)
    (ha : pyStrip a = "") (hb : pyStrip b = "") :
    specWindow (a :: b :: r) = [] := by
  rw [specWindow, windowPref_cons, if_pos (by simp [ha, hb])]
  rfl

theorem specWindow_blank_skip {a b : String} (r : List String)
    (ha : pyStrip a = "") (hb : pyStrip b ≠ "") :
    specWindow (a :: b :: r) = specWindow (b :: r) := by
  rw [specWindow, windowPref_cons, if_neg (by simp [hb]),
    if_neg (by rw [ha, startsStar_empty]; simp)]
  rw [specWindow, List.filter_cons_of_neg (by simp [ha])]

theorem specWindow_star {a : String} (rest : List String)
    (ha : pyStrip a ≠ "") (hstar : startsStar (pyStrip a) = true) :
    specWindow (a :: rest) = [] := by
  rw [specWindow, windowPref_cons, if_neg (by simp [ha]), if_pos hstar]
  rfl

theorem specWindow_data {a : String} (rest : List String)
    (ha : pyStrip a ≠ "") (hstar : startsStar (pyStrip a) = false) :
    specWindow (a :: rest) = pyStrip a :: specWindow rest := by
  rw [specWindow, windowPref_cons, if_neg (by simp [ha]),
    if_neg (by rw [hstar]; simp)]
  rw [specWindow, List.filter_cons_of_pos (by simp [ha]), List.map_cons]

theorem collectTable_eq_specWindow : ∀ lines, collectTable lines = specWindow lines := by
  intro lines
  induction lines with
  | nil => rfl
  | cons a rest ih =>
    by_cases ha : pyStrip a = ""
    · cases rest with
      | nil =>
        rw [collectTable, collectAux_cons, if_pos ha,
          if_neg (by norm_num), specWindow_blank_single ha]
        rfl
      | cons b r =>
        by_cases hb : pyStrip b = ""
        · rw [collectTable, collectAux_cons, if_pos ha, if_neg (by norm_num),
            collectAux_cons, if_pos hb, if_pos (by norm_num),
            specWindow_two_blank r ha hb]
        · rw [collectTable, collectAux_cons, if_pos ha, if_neg (by norm_num),
            collectAux_one_of_nonblank r hb,
            show collectAux 0 (b :: r) = collectTable (b :: r) from rfl, ih,
            specWindow_blank_skip r ha hb]
    · by_cases hstar : startsStar (pyStrip a) = true
      · rw [collectTable, collectAux_cons, if_neg ha, if_pos hstar,
          specWindow_star rest ha hstar]
      · have hstar' : startsStar (pyStrip a) = false := Bool.eq_false_iff.mpr hstar
        rw [collectTable, collectAux_cons, if_neg ha, if_neg hstar,
          show collectAux 0 rest = collectTable rest from rfl, ih,
          specWindow_data rest ha hstar']

/-! ## Claim C1: extraction window boundaries and Section-Not-Found -/

/-- C1: the extraction window starts two lines after the first line
containing the LMFR marker, and contains exactly the trimmed non-blank,
non-sentinel lines up to (excluding) the first of two consecutive blank
lines, a `*`-prefixed line, or end of stream — so footnote lines after the
table never appear; when the marker never occurs the endpoint signals
Section-Not-Found (HTTP 400 "Tabela LMFR não encontrada"). -/
theorem claim_C1_extraction_window (lines : List String) :
    (findStart lines = none ↔ ∀ l ∈ lines, containsMarker l = false) ∧
    (∀ i l, lines[i]? = some l → containsMarker l = true →
      (lines.take i).all (fun x => !(containsMarker x)) = true →
      findStart lines = some (i + 2)) ∧
    (∀ ls, collectTable ls = specWindow ls) ∧
    (∀ varsStr ls, (∀ l ∈ ls, containsMarker l = false) →
      transformartxt 2 varsStr (fun _ => some ls) = .error .lmfrNotFound) := by
  refine ⟨?_, ?_, collectTable_eq_specWindow, ?_⟩
  · rw [findStart, Option.map_eq_none']
    exact findMarkerLine_eq_none_iff lines
  · intro i l hget hm hprev
    rw [findStart, findMarkerLine_first hget hm hprev]
    rfl
  · intro varsStr ls h
    have hnone : findStart ls = none := by
      rw [findStart, Option.map_eq_none']
      exact (findMarkerLine_eq_none_iff ls).mpr h
    simp [transformartxt, filePathFor, hnone]

theorem claim_C1_witness :
    findStart ["top", "x Lambda-Marginal Frequency Ratio (LMFR) y", "sep",
      "a b", "", "", "* foot"] = some 3 ∧
    transformartxt 2 none (fun _ => some ["alpha", "beta"])
      = .error .lmfrNotFound := by
  constructor
  · exact (claim_C1_extraction_window _).2.1 1
      "x Lambda-Marginal Frequency Ratio (LMFR) y" (by decide) (by decide) (by decide)
  · exact (claim_C1_extraction_window []).2.2.2 none ["alpha", "beta"] (by decide)

/-! ## Helper lemmas for claims C2 and C3 -/

theorem emit_cur_none (w? : Option Nat) (parts : List String) :
    emit w? none parts = [] := by
  cases w? <;> rfl

theorem parseStep_marker (isMark : String → Bool) (w? : Option Nat)
    (st : Option String × List (List String)) {line p0 : String}
    {rest : List String} (ht : tokensOf line = p0 :: rest)
    (hm : isMark p0 = true) :
    parseStep isMark w? st line = (some p0, st.2 ++ emit w? (some p0) rest) := by
  rw [parseStep, ht, parseStepTok, if_pos hm]

theorem parseStep_no_marker (isMark : String → Bool) (w? : Option Nat)
    (st : Option String × List (List String)) {line p0 : String}
    {rest : List String} (ht : tokensOf line = p0 :: rest)
    (hm : isMark p0 = false) :
    parseStep isMark w? st line = (st.1, st.2 ++ emit w? st.1 (p0 :: rest)) := by
  rw [parseStep, ht, parseStepTok, if_neg (by simp [hm])]

theorem parseTable_records_marked (isMark : String → Bool) (w? : Option Nat) :
    ∀ (lines : List String) (st : Option String × List (List String)),
      (∀ v, st.1 = some v → isMark v = true) →
      (∀ rec ∈ st.2, ∃ v t, rec = v :: t ∧ isMark v = true) →
      ∀ rec ∈ (lines.foldl (parseStep isMark w?) st).2,
        ∃ v t, rec = v :: t ∧ isMark v = true := by
  intro lines
  induction lines with
  | nil => intro st _ h2 rec hrec; exact h2 rec hrec
  | cons line ls ih =>
    intro st h1 h2 rec hrec
    rw [List.foldl_cons] at hrec
    have hemit : ∀ (cur : Option String) (parts : List String),
        (∀ v, cur = some v → isMark v = true) →
        ∀ rec2 ∈ emit w? cur parts, ∃ v t, rec2 = v :: t ∧ isMark v = true := by
      intro cur parts hcur rec2 hrec2
      cases w? with
      | none => cases cur <;> cases hrec2
      | some w =>
        cases cur with
        | none => cases hrec2
        | some v =>
          rw [emit] at hrec2
          by_cases hw : w ≤ parts.length
          · rw [if_pos hw] at hrec2
            have : rec2 = v :: parts.take w := by simpa using hrec2
            exact ⟨v, parts.take w, this, hcur v rfl⟩
          · rw [if_neg hw] at hrec2
            cases hrec2
    cases ht : tokensOf line with
    | nil =>
      refine ih (parseStep isMark w? st line) ?_ ?_ rec hrec
      · rw [parseStep, ht, parseStepTok]; exact h1
      · rw [parseStep, ht, parseStepTok]; exact h2
    | cons p0 rest =>
      by_cases hm : isMark p0 = true
      · refine ih (parseStep isMark w? st line) ?_ ?_ rec hrec
        · rw [parseStep_marker isMark w? st ht hm]
          intro v hv
          have : p0 = v := by simpa using hv
          exact this ▸ hm
        · rw [parseStep_marker isMark w? st ht hm]
          intro rec2 hrec2
          rcases List.mem_append.mp hrec2 with h | h
          · exact h2 rec2 h
          · exact hemit (some p0) rest (fun v hv => by
              have : p0 = v := by simpa using hv
              exact this ▸ hm) rec2 h
      · have hm' : isMark p0 = false := Bool.eq_false_iff.mpr hm
        refine ih (parseStep isMark w? st line) ?_ ?_ rec hrec
        · rw [parseStep_no_marker isMark w? st ht hm']
          exact h1
        · rw [parseStep_no_marker isMark w? st ht hm']
          intro rec2 hrec2
          rcases List.mem_append.mp hrec2 with h | h
          · exact h2 rec2 h
          · exact hemit st.1 (p0 :: rest) h1 rec2 h

/-! ## Claim C2: the current-variable label state machine -/

/-- C2: the current-variable label starts unset; a line whose leading token
passes the marker test (membership in the caller-supplied set at the
main.py call site, the fixed prefix "Var" at the mainTestes.py call site)
sets the label to that token and removes it before width-checking; a line
processed while the label is unset contributes no record and leaves the
label unset; a line with a set label emits (subject only to the width
check) a record headed by the most recently set label; and every emitted
record is headed by a token that passed the marker test. -/
theorem claim_C2_current_variable_state (isMark : String → Bool) (w? : Option Nat) :
    (∀ vars numK lines, parseMain vars numK lines
        = parseTable (fun t => vars.contains t) (rowWidthFor numK) lines) ∧
    (∀ lines, parseTestes lines = parseTable startsVar (some 7) lines) ∧
    (∀ lines, parseTable isMark w? lines
        = (lines.foldl (parseStep isMark w?) (none, [])).2) ∧
    (∀ st line p0 rest, tokensOf line = p0 :: rest → isMark p0 = true →
      parseStep isMark w? st line = (some p0, st.2 ++ emit w? (some p0) rest)) ∧
    (∀ d line, tokensOf line = [] ∨
        (∃ p0 rest, tokensOf line = p0 :: rest ∧ isMark p0 = false) →
      parseStep isMark w? (none, d) line = (none, d)) ∧
    (∀ v d line p0 rest, tokensOf line = p0 :: rest → isMark p0 = false →
      parseStep isMark w? (some v, d) line
        = (some v, d ++ emit w? (some v) (p0 :: rest))) ∧
    (∀ lines rec, rec ∈ parseTable isMark w? lines →
      ∃ v t, rec = v :: t ∧ isMark v = true) := by
  refine ⟨fun _ _ _ => rfl, fun _ => rfl, fun _ => rfl, ?_, ?_, ?_, ?_⟩
  · intro st line p0 rest ht hm
    exact parseStep_marker isMark w? st ht hm
  · intro d line h
    rcases h with h | ⟨p0, rest, ht, hm⟩
    · rw [parseStep, h, parseStepTok]
    · rw [parseStep_no_marker isMark w? (none, d) ht hm]
      rw [emit_cur_none]
      simp
  · intro v d line p0 rest ht hm
    exact parseStep_no_marker isMark w? (some v, d) ht hm
  · intro lines rec hrec
    exact parseTable_records_marked isMark w? lines (none, [])
      (fun v hv => by cases hv) (fun r hr => by cases hr) rec hrec

theorem claim_C2_witness :
    parseStep (fun t => (["Var1"] : List String).contains t) (some 7) (none, [])
        "Var1 1 10 0.5 0.6 0.4 0.3 0.2"
      = (some "Var1", ([] : List (List String)) ++ emit (some 7) (some "Var1")
          ["1", "10", "0.5", "0.6", "0.4", "0.3", "0.2"]) :=
  (claim_C2_current_variable_state (fun t => (["Var1"] : List String).contains t)
    (some 7)).2.2.2.1 (none, []) "Var1 1 10 0.5 0.6 0.4 0.3 0.2" "Var1"
    ["1", "10", "0.5", "0.6", "0.4", "0.3", "0.2"] (by decide) (by decide)

/-! ## Claim C3: k-dependent schema width and row truncation -/

/-- C3: for each profile count k ∈ {2,3,4} the schema has exactly 4 + 2k
columns, named as the spec's `["Variable","Level","n","perc", k1..kk,
k1_perc_lj..kk_perc_lj]`; a line with at least 3 + 2k trailing tokens after
label-stripping is kept truncated to exactly its first 3 + 2k tokens, and a
line with fewer is silently dropped; in particular for k = 2 a line with 7
trailing tokens is kept and one with 6 is dropped. -/
theorem claim_C3_schema_projection (numK : Int)
    (h : numK = 2 ∨ numK = 3 ∨ numK = 4) :
    (∃ cols w, colsFor numK = some cols ∧ rowWidthFor numK = some w ∧
      cols = specColsFor numK.toNat ∧ cols.length = 4 + 2 * numK.toNat ∧
      w = 3 + 2 * numK.toNat ∧
      (∀ (v : String) (parts : List String), w ≤ parts.length →
        emit (rowWidthFor numK) (some v) parts = [v :: parts.take w] ∧
        (v :: parts.take w).length = 4 + 2 * numK.toNat) ∧
      (∀ (v : String) (parts : List String), parts.length < w →
        emit (rowWidthFor numK) (some v) parts = [])) ∧
    emit (rowWidthFor 2) (some "V") ["1", "2", "3", "4", "5", "6", "7"]
      = [["V", "1", "2", "3", "4", "5", "6", "7"]] ∧
    emit (rowWidthFor 2) (some "V") ["1", "2", "3", "4", "5", "6"] = [] := by
  refine ⟨?_, by decide, by decide⟩
  have hkeep : ∀ (w : Nat) (v : String) (parts : List String), w ≤ parts.length →
      emit (some w) (some v) parts = [v :: parts.take w] ∧
      (v :: parts.take w).length = 1 + w := by
    intro w v parts hw
    refine ⟨by rw [emit, if_pos hw], ?_⟩
    rw [List.length_cons, List.length_take, Nat.min_eq_left hw, Nat.add_comm]
  have hdrop : ∀ (w : Nat) (v : String) (parts : List String), parts.length < w →
      emit (some w) (some v) parts = [] := by
    intro w v parts hw
    rw [emit, if_neg (Nat.not_le.mpr hw)]
  rcases h with rfl | rfl | rfl
  · refine ⟨_, 7, rfl, rfl, by decide, by decide, by decide, ?_, ?_⟩
    · intro v parts hw
      have := hkeep 7 v parts hw
      exact ⟨by rw [show rowWidthFor 2 = some 7 from rfl]; exact this.1, by rw [this.2]; decide⟩
    · intro v parts hw
      rw [show rowWidthFor 2 = some 7 from rfl]
      exact hdrop 7 v parts hw
  · refine ⟨_, 9, rfl, rfl, by decide, by decide, by decide, ?_, ?_⟩
    · intro v parts hw
      have := hkeep 9 v parts hw
      exact ⟨by rw [show rowWidthFor 3 = some 9 from rfl]; exact this.1, by rw [this.2]; decide⟩
    · intro v parts hw
      rw [show rowWidthFor 3 = some 9 from rfl]
      exact hdrop 9 v parts hw
  · refine ⟨_, 11, rfl, rfl, by decide, by decide, by decide, ?_, ?_⟩
    · intro v parts hw
      have := hkeep 11 v parts hw
      exact ⟨by rw [show rowWidthFor 4 = some 11 from rfl]; exact this.1, by rw [this.2]; decide⟩
    · intro v parts hw
      rw [show rowWidthFor 4 = some 11 from rfl]
      exact hdrop 11 v parts hw

theorem claim_C3_witness :
    colsFor 2 = some (specColsFor (2 : Int).toNat) ∧
    emit (rowWidthFor 2) (some "V") ["1", "2", "3", "4", "5", "6", "7"]
      = [["V", "1", "2", "3", "4", "5", "6", "7"]] := by
  obtain ⟨⟨cols, w, h1, _, h3, _, _, _, _⟩, h8, _⟩ :=
    claim_C3_schema_projection 2 (Or.inl rfl)
  exact ⟨by rw [h1, h3], h8⟩

/-! ## Helper lemmas for claim C7 -/

theorem echartsAux_length : ∀ (rows : List HRow) (n : Nat),
    (echartsAux n rows).length = 2 * rows.length := by
  intro rows
  induction rows with
  | nil => intro n; rfl
  | cons r rest ih =>
    intro n
    rw [echartsAux, List.length_cons, List.length_cons, ih (n + 1),
      List.length_cons]
    omega

theorem echartsAux_getElem : ∀ (rows : List HRow) (n i : Nat) (r : HRow),
    rows[i]? = some r →
    (echartsAux n rows)[2 * i]? = some (0, n + i, r.k1) ∧
    (echartsAux n rows)[2 * i + 1]? = some (1, n + i, r.k2) := by
  intro rows
  induction rows with
  | nil => intro n i r h; cases h
  | cons r0 rest ih =>
    intro n i r h
    cases i with
    | zero =>
      have : r0 = r := by simpa using h
      subst this
      exact ⟨by simp [echartsAux], by simp [echartsAux]⟩
    | succ j =>
      have h' : rest[j]? = some r := by simpa using h
      have hrec := ih (n + 1) j r h'
      have hn : n + 1 + j = n + (j + 1) := by omega
      constructor
      · have hidx : 2 * (j + 1) = 2 * j + 1 + 1 := by omega
        rw [echartsAux, hidx, List.getElem?_cons_succ, List.getElem?_cons_succ,
          ← hn]
        exact hrec.1
      · have hidx : 2 * (j + 1) + 1 = 2 * j + 1 + 1 + 1 := by omega
        rw [echartsAux, hidx, List.getElem?_cons_succ, List.getElem?_cons_succ,
          ← hn]
        exact hrec.2

/-! ## Claim C7: heatmap reshaping -/

/-- C7: for every projected table the x-axis labels are the fixed pair
`["k1","k2"]`, the y-axis labels are `"{Variable} - {Level}"` in table row
order, and the coordinate list has length `2n` containing, for each row
`r`, the triple `(0, r, k1_r)` immediately followed by `(1, r, k2_r)`. -/
theorem claim_C7_heatmap_reshape (rows : List HRow) :
    (retornarDadosHeatmap rows).1 = ["k1", "k2"] ∧
    (retornarDadosHeatmap rows).2.1 = rows.map yLabelOf ∧
    (∀ (i : Nat) (r : HRow), rows[i]? = some r →
      ((retornarDadosHeatmap rows).2.1)[i]?
        = some (r.varName ++ " - " ++ r.level)) ∧
    (retornarDadosHeatmap rows).2.2.length = 2 * rows.length ∧
    (∀ (i : Nat) (r : HRow), rows[i]? = some r →
      ((retornarDadosHeatmap rows).2.2)[2 * i]? = some (0, i, r.k1) ∧
      ((retornarDadosHeatmap rows).2.2)[2 * i + 1]? = some (1, i, r.k2)) := by
  refine ⟨rfl, rfl, ?_, echartsAux_length rows 0, ?_⟩
  · intro i r h
    show (rows.map yLabelOf)[i]? = some (r.varName ++ " - " ++ r.level)
    rw [List.getElem?_map, h]
    rfl
  · intro i r h
    have := echartsAux_getElem rows 0 i r h
    rwa [Nat.zero_add] at this

theorem claim_C7_witness :
    ((retornarDadosHeatmap [⟨"A", "1", (0.6 : ℚ), 0⟩, ⟨"A", "2", (0.1 : ℚ), (0.9 : ℚ)⟩]).2.2)[0]?
        = some (0, 0, (0.6 : ℚ)) ∧
    ((retornarDadosHeatmap [⟨"A", "1", (0.6 : ℚ), 0⟩, ⟨"A", "2", (0.1 : ℚ), (0.9 : ℚ)⟩]).2.2)[1]?
        = some (1, 0, (0 : ℚ)) ∧
    ((retornarDadosHeatmap [⟨"A", "1", (0.6 : ℚ), 0⟩, ⟨"A", "2", (0.1 : ℚ), (0.9 : ℚ)⟩]).2.2)[2]?
        = some (0, 1, (0.1 : ℚ)) ∧
    ((retornarDadosHeatmap [⟨"A", "1", (0.6 : ℚ), 0⟩, ⟨"A", "2", (0.1 : ℚ), (0.9 : ℚ)⟩]).2.2)[3]?
        = some (1, 1, (0.9 : ℚ)) ∧
    ((retornarDadosHeatmap [⟨"A", "1", (0.6 : ℚ), 0⟩, ⟨"A", "2", (0.1 : ℚ), (0.9 : ℚ)⟩]).2.1)[0]?
        = some "A - 1" := by
  have h0 := (claim_C7_heatmap_reshape
    [⟨"A", "1", (0.6 : ℚ), 0⟩, ⟨"A", "2", (0.1 : ℚ), (0.9 : ℚ)⟩]).2.2.2.2 0
    ⟨"A", "1", (0.6 : ℚ), 0⟩ rfl
  have h1 := (claim_C7_heatmap_reshape
    [⟨"A", "1", (0.6 : ℚ), 0⟩, ⟨"A", "2", (0.1 : ℚ), (0.9 : ℚ)⟩]).2.2.2.2 1
    ⟨"A", "2", (0.1 : ℚ), (0.9 : ℚ)⟩ rfl
  have hy := (claim_C7_heatmap_reshape
    [⟨"A", "1", (0.6 : ℚ), 0⟩, ⟨"A", "2", (0.1 : ℚ), (0.9 : ℚ)⟩]).2.2.1 0
    ⟨"A", "1", (0.6 : ℚ), 0⟩ rfl
  exact ⟨h0.1, h0.2, h1.1, h1.2, hy⟩

/-! ## Claim C8 (corrected): heatmap endpoint error handling -/

/-- Counterexample to C8: with the derived table present but lacking the
`k2` column, the endpoint does not signal a Schema-Mismatch — the pandas
column selection raises a `KeyError` that no handler catches, i.e. an
unclassified internal failure. -/
theorem claim_C8_counterexample :
    dadosHeatmapEndpoint (some [("Variable", []), ("Level", []), ("k1", [])])
      = .error (.uncaughtKeyError ["k2"]) := by decide

/-- C8 as amended: a missing source table is caught and answered with a
reportable error payload (no crash), but a present table lacking required
columns escapes as an uncaught key error — an unclassified failure, not a
Schema-Mismatch signal. -/
theorem claim_C8_amended (src : Option Df) :
    (src = none → dadosHeatmapEndpoint src = .ok .errorNotFound) ∧
    (∀ df, src = some df → heatmapMissingCols df ≠ [] →
      dadosHeatmapEndpoint src
        = .error (.uncaughtKeyError (heatmapMissingCols df))) := by
  constructor
  · rintro rfl
    rfl
  · rintro df rfl hne
    rw [dadosHeatmapEndpoint, if_neg hne]

theorem claim_C8_witness :
    dadosHeatmapEndpoint none = .ok .errorNotFound :=
  (claim_C8_amended none).1 rfl

/-! ## Claim C9: out-of-range profile counts hit an unbound local -/

/-- C9: `transformartxt` is defined only for `num_k ∈ {2,3,4}`: the
`match num_k` for the file path has no default branch, so for any other
`num_k` the later read of `file_path` raises an unhandled
`UnboundLocalError` — no clean HTTP failure kind is produced. -/
theorem claim_C9_unbound_local (numK : Int)
    (h2 : numK ≠ 2) (h3 : numK ≠ 3) (h4 : numK ≠ 4) :
    ∀ (varsStr : Option String) (fs : String → Option (List String)),
      transformartxt numK varsStr fs = .error .unboundLocal := by
  intro varsStr fs
  have hfp : filePathFor numK = none := by
    rw [filePathFor, if_neg h2, if_neg h3, if_neg h4]
  rw [transformartxt]
  rw [hfp]

theorem claim_C9_witness :
    transformartxt 5 none (fun _ => none) = .error .unboundLocal :=
  claim_C9_unbound_local 5 (by decide) (by decide) (by decide) none (fun _ => none)

end GomApi
